import Mathlib

/-!
Verification of `scripts/valhalla_build_extract.py`.

The script packs a directory of `.gph` graph tiles into a tar archive whose
first member `index.bin` is patched in place with `(offset, tileId, size)`
records, and optionally derives a zero-filled `traffic.tar` sidecar sized from
each tile's header.  This file gives a shallow embedding of the script:

* byte strings are `List Nat` (each element a byte value `< 256`),
* member and file names are `List Char`,
* Python `int(...)` parsing is modelled by `pyInt` (optional surrounding ASCII
  whitespace, one optional sign, decimal digits with single underscores
  between digits, as accepted by CPython for ASCII inputs),
* the tar container is modelled block-accurately: each member occupies a
  512-byte header block followed by its data padded to a block boundary, and
  closing the archive appends two zero blocks plus padding to a 10240-byte
  record boundary (`tarfile`'s behaviour).  No claim inspects the bytes of a
  header block, so header blocks are modelled as zero blocks of the correct
  length,
* `create_extracts` is modelled as a function from the tile directory, the
  `do_traffic` flag and a flag saying whether the global name `traffic_fp`
  is bound (it is exactly when the script is run through `__main__`) to an
  outcome recording how the call ended, the bytes of the primary archive and
  the members of the traffic archive.
-/

set_option maxRecDepth 200000

/-! ## Byte-level helpers -/

/-- Little-endian byte encoding of `v` on `w` bytes (`struct.pack` layout:
first byte least significant). -/
def leBytes : Nat → Nat → List Nat
  | 0, _ => []
  | w + 1, v => v % 256 :: leBytes w (v / 256)

/-- Little-endian value of a byte string: the first byte is least
significant. -/
def leWord (bs : List Nat) : Nat :=
  bs.foldr (fun b acc => acc * 256 + b % 256) 0

/-- `fileobj.seek(off); fileobj.read(n)`: up to `n` bytes starting at `off`;
a read past the end of the file returns fewer bytes. -/
def readBytes (bytes : List Nat) (off n : Nat) : List Nat :=
  (bytes.drop off).take n

/-- `fileobj.seek(pos); fileobj.write(patch)` on a file opened `r+b`:
overwrite in place. -/
def writeAt (bytes : List Nat) (pos : Nat) (patch : List Nat) : List Nat :=
  bytes.take pos ++ patch ++ bytes.drop (pos + patch.length)

/-! ## `struct` format sizes

The script computes all sizes with `struct.calcsize` on `<`-prefixed
(little-endian, unpadded) format strings built from `Q` (8), `L` (4), `I` (4),
`f` (4) and `c` (1). -/

/-- A `struct` format character used by the script. -/
inductive FmtChar
  | Q | L | I | f | c
deriving DecidableEq

/-- Standard (`<`-prefixed) size of one format character. -/
def fmtCharSize : FmtChar → Nat
  | .Q => 8
  | .L => 4
  | .I => 4
  | .f => 4
  | .c => 1

/-- `struct.calcsize` for a `<`-prefixed format given as repeat counts and
format characters: no padding, so sizes just add up. -/
def calcsize (fmt : List (Nat × FmtChar)) : Nat :=
  (fmt.map fun p => p.1 * fmtCharSize p.2).sum

/-- `INDEX_BIN_SIZE = struct.calcsize('<QLL')`. -/
def INDEX_BIN_SIZE : Nat := calcsize [(1, .Q), (1, .L), (1, .L)]

/-- `GRAPHTILE_SKIP_BYTES = struct.calcsize('<Q2f16cQ')`. -/
def GRAPHTILE_SKIP_BYTES : Nat := calcsize [(1, .Q), (2, .f), (16, .c), (1, .Q)]

/-- `TRAFFIC_HEADER_SIZE = struct.calcsize('<2Q4I')`. -/
def TRAFFIC_HEADER_SIZE : Nat := calcsize [(2, .Q), (4, .I)]

/-- `TRAFFIC_SPEED_SIZE = struct.calcsize('<Q')`. -/
def TRAFFIC_SPEED_SIZE : Nat := calcsize [(1, .Q)]

/-- `tarfile.BLOCKSIZE`. -/
def BLOCKSIZE : Nat := 512

/-- `tarfile.RECORDSIZE`. -/
def RECORDSIZE : Nat := BLOCKSIZE * 20

/-- `INDEX_FILE = "index.bin"`. -/
def INDEX_FILE : List Char := "index.bin".toList

/-! ## Python `int()` on decimal strings -/

/-- ASCII decimal digit test. -/
def isDigitCh (c : Char) : Bool := decide ('0' ≤ c ∧ c ≤ '9')

/-- Numeric value of an ASCII digit. -/
def digitVal (c : Char) : Nat := c.toNat - 48

/-- Decimal value of a digit string. -/
def decVal (cs : List Char) : Nat :=
  cs.foldl (fun a c => a * 10 + digitVal c) 0

/-- ASCII whitespace stripped by Python's `int()`. -/
def isPySpace (c : Char) : Bool :=
  c = ' ' || c = '\t' || c = '\n' || c = '\r' || c = '\x0b' || c = '\x0c'

/-- `str.strip()` restricted to ASCII whitespace. -/
def stripWs (cs : List Char) : List Char :=
  ((cs.dropWhile isPySpace).reverse.dropWhile isPySpace).reverse

/-- Remaining digits of a CPython decimal literal after its first digit:
digits, with single underscores allowed only between digits.  The flag says
that the previous character was an underscore, so the next one must be a
digit and the literal must not end here. -/
def pyDigitsGo : List Char → Nat → Bool → Option Nat
  | [], _, true => none
  | [], acc, false => some acc
  | ch :: rest, acc, afterUnd =>
    if isDigitCh ch then pyDigitsGo rest (acc * 10 + digitVal ch) false
    else if ch = '_' && !afterUnd then pyDigitsGo rest acc true
    else none

/-- An unsigned CPython decimal literal: a nonempty digit string with single
underscores allowed between digits. -/
def pyDigits : List Char → Option Nat
  | [] => none
  | ch :: rest => if isDigitCh ch then pyDigitsGo rest (digitVal ch) false else none

/-- Python's `int(s)` on an ASCII string: strip whitespace, then an optional
single sign followed by a decimal literal. -/
def pyInt (cs0 : List Char) : Option Int :=
  match stripWs cs0 with
  | [] => none
  | ch :: rest =>
    if ch = '+' then (pyDigits rest).map fun n => (n : Int)
    else if ch = '-' then (pyDigits rest).map fun n => -(n : Int)
    else (pyDigits (ch :: rest)).map fun n => (n : Int)

/-- Split a list at the first occurrence of `sep` (`str.split(sep, 1)` when a
separator is present; `none` models the `ValueError` raised by unpacking a
one-element split result into two names). -/
def splitFirst (sep : Char) : List Char → Option (List Char × List Char)
  | [] => none
  | ch :: rest =>
    if ch = sep then some ([], rest)
    else (splitFirst sep rest).map fun p => (ch :: p.1, p.2)

/-- Python's `<<` on arbitrary-precision integers: multiplication by a power
of two (also for negative values). -/
def pyShl (v : Int) (k : Nat) : Int := v * 2 ^ k

/-- Python's `|` on arbitrary-precision integers: two's-complement bitwise
or, which is `Int.lor`. -/
def pyOr (a b : Int) : Int := Int.lor a b

/-- `get_tile_id(path)`: `level, idx = path[:-4].split('/', 1)` followed by
`int(level) | (int(idx.replace('/', '')) << 3)`.  `none` models an uncaught
`ValueError` (from unpacking or from `int()`). -/
def get_tile_id (path : List Char) : Option Int :=
  match splitFirst '/' (path.take (path.length - 4)) with
  | none => none
  | some (level, idx) =>
    match pyInt level, pyInt (idx.filter fun ch => ch != '/') with
    | some l, some i => some (pyOr l (pyShl i 3))
    | _, _ => none

example : INDEX_BIN_SIZE = 16 := by decide
example : GRAPHTILE_SKIP_BYTES = 40 := by decide
example : TRAFFIC_HEADER_SIZE = 32 := by decide
example : TRAFFIC_SPEED_SIZE = 8 := by decide
example : get_tile_id ("0/001.gph".toList) = some 8 := by decide
example : get_tile_id ("1/002/003.gph".toList) = some 16025 := by decide
example : get_tile_id ("abc.gph".toList) = none := by decide
example : get_tile_id ("-1/001.gph".toList) = some (-1) := by
  have h1 : get_tile_id ("-1/001.gph".toList) = some (pyOr (-1) (pyShl 1 3)) := rfl
  have h2 : Nat.ldiff 0 8 = 0 := by simp [Nat.ldiff, Nat.bitwise]
  rw [h1]
  show some (Int.negSucc (Nat.ldiff 0 8)) = some (-1)
  rw [h2]
  rfl
example : get_tile_id ("8/001.gph".toList) = some 8 := by decide
example : pyInt ("2_003".toList) = some 2003 := by decide
example : pyInt ("_2".toList) = none := by decide
example : pyInt ("2_".toList) = none := by decide

/-! ## The tile directory and the tar container -/

/-- One entry under the tile root directory, with its path relative to the
root (`/`-separated, as `tarfile` stores member names). -/
inductive FsEntry
  | dir (name : List Char)
  | file (name : List Char) (content : List Nat)
deriving DecidableEq

/-- The configured `mjolnir.tile_dir`: whether the path exists, whether it is
a directory, and its entries listed in the order `tar.add(..., recursive=True)`
archives them (depth-first, children sorted by name). -/
structure TileDir where
  pathExists : Bool
  isDir : Bool
  entries : List FsEntry
deriving DecidableEq

/-- A tar archive member as `tarfile` exposes it: name, data bytes, and
whether it is a directory member. -/
structure TarMember where
  name : List Char
  data : List Nat
  isDir : Bool
deriving DecidableEq

/-- `name.endswith('.gph')`. -/
def gphName (name : List Char) : Bool :=
  (".gph".toList).isSuffixOf name

/-- Does an entry count as a graph tile for `get_tile_count` (a file whose
name ends in `.gph`; `os.walk` only yields files, never directories)? -/
def isGphFile : FsEntry → Bool
  | FsEntry.file n _ => gphName n
  | FsEntry.dir _ => false

/-- `get_tile_count`: the number of files under the tile root whose name ends
in `.gph`. -/
def get_tile_count (d : TileDir) : Nat :=
  (d.entries.filter isGphFile).length

/-- The in-memory `index.bin` placeholder: `BytesIO(b'0' * index_size)`, the
ASCII digit zero repeated, sized at `INDEX_BIN_SIZE` bytes per tile. -/
def placeholderOf (d : TileDir) : List Nat :=
  List.replicate (INDEX_BIN_SIZE * get_tile_count d) ('0').toNat

/-- The tar member an entry of the tile directory becomes. -/
def fsEntryMember : FsEntry → TarMember
  | FsEntry.dir n => ⟨n, [], true⟩
  | FsEntry.file n content => ⟨n, content, false⟩

/-- The members of the primary archive, in physical order: first `index.bin`
with the placeholder content, then the member `tar.add` records for the tile
root itself (archive name `''`), then every entry under the root. -/
def tarMembersOf (d : TileDir) : List TarMember :=
  ⟨INDEX_FILE, placeholderOf d, false⟩ :: ⟨[], [], true⟩ :: d.entries.map fsEntryMember

/-- Zero bytes `tarfile` appends after a member's data to reach a block
boundary. -/
def padLen (n : Nat) : Nat := (BLOCKSIZE - n % BLOCKSIZE) % BLOCKSIZE

/-- Bytes one member occupies on disk: a 512-byte header block, the data, and
padding to a block boundary.  No claim inspects header bytes, so the header
block is modelled as a zero block of the correct length. -/
def memberBytes (m : TarMember) : List Nat :=
  List.replicate BLOCKSIZE 0 ++ m.data ++ List.replicate (padLen m.data.length) 0

/-- On-disk length of one member (header block + padded data). -/
def memberSpan (m : TarMember) : Nat :=
  BLOCKSIZE + m.data.length + padLen m.data.length

/-- The bytes of a closed tar archive: the members back to back, two zero
end-of-archive blocks, and zero padding to a record boundary (`tarfile`'s
`close`). -/
def tarBytes (ms : List TarMember) : List Nat :=
  (ms.map memberBytes).flatten ++ List.replicate (2 * BLOCKSIZE) 0
    ++ List.replicate
      ((RECORDSIZE - ((ms.map memberBytes).flatten ++ List.replicate (2 * BLOCKSIZE) 0).length % RECORDSIZE) % RECORDSIZE)
      0

/-! ## Pass 2: offset recovery, and pass "write back" -/

/-- One recovered index record `(member.offset_data, get_tile_id(member.name),
member.size)`. -/
abbrev IndexEntry := Nat × Int × Nat

deriving instance DecidableEq for Except

/-- Errors the script can die with on paths the claims mention. -/
inductive PyErr
  | valueError
  | structError
  | nameError
deriving DecidableEq

/-- The offset-recovery loop over `tar.getmembers()`: `pos` is the byte
offset of the current member's header block, so its data starts at
`pos + BLOCKSIZE`.  A member whose name ends in `.gph` contributes one index
entry; a name `get_tile_id` cannot decode raises `ValueError`. -/
def recoverGo : List TarMember → Nat → Except PyErr (List IndexEntry)
  | [], _ => Except.ok []
  | m :: rest, pos =>
    if gphName m.name then
      match get_tile_id m.name with
      | none => Except.error PyErr.valueError
      | some tid =>
        match recoverGo rest (pos + memberSpan m) with
        | Except.error e => Except.error e
        | Except.ok l => Except.ok ((pos + BLOCKSIZE, tid, m.data.length) :: l)
    else recoverGo rest (pos + memberSpan m)

/-- Ranges `struct.pack('<QLL', offset, tid, size)` accepts: `Q` is an
unsigned 64-bit field and each `L` an unsigned 32-bit field. -/
def entryInRange (e : IndexEntry) : Bool :=
  decide (e.1 < 2 ^ 64) && decide (0 ≤ e.2.1) && decide (e.2.1 < 2 ^ 32)
    && decide (e.2.2 < 2 ^ 32)

/-- `struct.pack('<QLL', offset, tid, size)` for in-range values. -/
def packBytes (e : IndexEntry) : List Nat :=
  leBytes 8 e.1 ++ leBytes 4 e.2.1.toNat ++ leBytes 4 e.2.2

/-- The packed records of every entry, back to back (the final content of
`index.bin`). -/
def packBlob (idx : List IndexEntry) : List Nat :=
  (idx.map packBytes).flatten

/-- The patch loop: `tar.seek(BLOCKSIZE)` then one `tar.write(struct.pack(...))`
per entry.  Returns the file bytes and whether every pack succeeded; an
out-of-range value raises `struct.error`, leaving the writes made so far. -/
def patchLoop (bytes : List Nat) (pos : Nat) : List IndexEntry → List Nat × Bool
  | [] => (bytes, true)
  | e :: rest =>
    if entryInRange e then
      patchLoop (writeAt bytes pos (packBytes e)) (pos + (packBytes e).length) rest
    else (bytes, false)

/-! ## Pass 3: the traffic skeleton -/

/-- `b.readinto(tile_header)` after `b = BytesIO(in_fileobj.read(8))` on a
zero-initialised `TileHeader` struct: the bytes actually read fill the low
bytes of the 64-bit word and the rest stay zero. -/
def readinto8 (bs : List Nat) : Nat :=
  leWord (bs.take 8 ++ List.replicate (8 - bs.length) 0)

/-- The traffic member built for one tile member whose data starts at
`offData` in the primary archive: seek to `offData + GRAPHTILE_SKIP_BYTES`,
read 8 bytes, take bits 21..41 of the little-endian word as
`directededgecount_` (the `ctypes` bit field on a little-endian host), and
emit a zero-filled member of `TRAFFIC_HEADER_SIZE + TRAFFIC_SPEED_SIZE *
directededgecount_` bytes under the tile's name. -/
def trafficMember (bytes : List Nat) (name : List Char) (offData : Nat) : TarMember :=
  { name := name
    data :=
      List.replicate
        (TRAFFIC_HEADER_SIZE +
          TRAFFIC_SPEED_SIZE * (readinto8 (readBytes bytes (offData + GRAPHTILE_SKIP_BYTES) 8) / 2 ^ 21 % 2 ^ 21))
        0
    isDir := false }

/-- The traffic-pass loop over the primary archive's members (`pos` is the
offset of the current member's header block): every `.gph` member yields one
traffic member, everything else is skipped. -/
def trafficGo (bytes : List Nat) : List TarMember → Nat → List TarMember
  | [], _ => []
  | m :: rest, pos =>
    if gphName m.name then
      trafficMember bytes m.name (pos + BLOCKSIZE) :: trafficGo bytes rest (pos + memberSpan m)
    else trafficGo bytes rest (pos + memberSpan m)

/-- The members of the traffic archive: first `index.bin`, written from the
same in-memory `BytesIO` as the pass-1 placeholder (only `seek(0)` is done,
its content is never rewritten), then one zero-filled member per tile. -/
def trafficArchive (bytes : List Nat) (ms : List TarMember) (placeholder : List Nat) : List TarMember :=
  ⟨INDEX_FILE, placeholder, false⟩ :: trafficGo bytes ms 0

/-! ## The whole of `create_extracts` -/

/-- How a call to `create_extracts` ends. -/
inductive RunResult
  | exited (code : Nat)
  | raised (e : PyErr)
  | returned
deriving DecidableEq

/-- Observable outcome of a call: how it ended, the bytes of the primary
archive if one was written, and the members of the traffic archive if one was
written. -/
structure RunOutcome where
  result : RunResult
  primary : Option (List Nat)
  traffic : Option (List TarMember)
deriving DecidableEq

/-- `create_extracts(tiles_fp_, extract_fp_, traffic_fp_, do_traffic)`.
`traffic_fp_bound` says whether the global name `traffic_fp` is bound, which
is exactly the case when the script runs through `__main__`; the final
`LOGGER.info` f-string reads that global, so an unbound name raises
`NameError` after the traffic archive is complete (f-strings are evaluated
eagerly, whatever the log level). -/
def create_extracts (d : TileDir) (do_traffic : Bool) (traffic_fp_bound : Bool) : RunOutcome :=
  if !d.pathExists || !d.isDir then ⟨RunResult.exited 1, none, none⟩
  else if get_tile_count d = 0 then ⟨RunResult.exited 1, none, none⟩
  else
    match recoverGo (tarMembersOf d) 0 with
    | Except.error e => ⟨RunResult.raised e, some (tarBytes (tarMembersOf d)), none⟩
    | Except.ok idx =>
      if (patchLoop (tarBytes (tarMembersOf d)) BLOCKSIZE idx).2 = false then
        ⟨RunResult.raised PyErr.structError,
          some (patchLoop (tarBytes (tarMembersOf d)) BLOCKSIZE idx).1, none⟩
      else if !do_traffic then
        ⟨RunResult.exited 0, some (patchLoop (tarBytes (tarMembersOf d)) BLOCKSIZE idx).1, none⟩
      else if traffic_fp_bound then
        ⟨RunResult.returned, some (patchLoop (tarBytes (tarMembersOf d)) BLOCKSIZE idx).1,
          some (trafficArchive (patchLoop (tarBytes (tarMembersOf d)) BLOCKSIZE idx).1
            (tarMembersOf d) (placeholderOf d))⟩
      else
        ⟨RunResult.raised PyErr.nameError,
          some (patchLoop (tarBytes (tarMembersOf d)) BLOCKSIZE idx).1,
          some (trafficArchive (patchLoop (tarBytes (tarMembersOf d)) BLOCKSIZE idx).1
            (tarMembersOf d) (placeholderOf d))⟩

/-- Exit code of a whole-process run that ends in the given outcome: an
uncaught exception makes the interpreter exit with code 1, and falling off the
end of `__main__` exits with code 0. -/
def exitCode (o : RunOutcome) : Nat :=
  match o.result with
  | RunResult.exited code => code
  | RunResult.raised _ => 1
  | RunResult.returned => 0

/-- A two-tile directory used as a concrete test input: `0/001.gph` holds 10
bytes.  Mirrors the spec's end-to-end scenario, first tile. -/
def sampleDir : TileDir :=
  ⟨true, true, [FsEntry.dir ("0".toList), FsEntry.file ("0/001.gph".toList) (List.replicate 10 1)]⟩

example : get_tile_count sampleDir = 1 := by decide
example : recoverGo (tarMembersOf sampleDir) 0 = Except.ok [(2560, 8, 10)] := by decide

/-! ## Helper lemmas about in-place writes -/

theorem writeAt_nil (bytes : List Nat) (pos : Nat) : writeAt bytes pos [] = bytes := by
  simp [writeAt]

theorem length_writeAt (bytes patch : List Nat) (pos : Nat)
    (h : pos + patch.length ≤ bytes.length) :
    (writeAt bytes pos patch).length = bytes.length := by
  simp only [writeAt, List.length_append, List.length_take, List.length_drop]
  omega

theorem take_writeAt (bytes patch : List Nat) (pos : Nat) (h : pos ≤ bytes.length) :
    (writeAt bytes pos patch).take pos = bytes.take pos := by
  have hl : (bytes.take pos).length = pos := by simp; omega
  rw [writeAt, List.append_assoc]
  exact List.take_left' hl

theorem drop_writeAt (bytes patch : List Nat) (pos : Nat)
    (h : pos + patch.length ≤ bytes.length) :
    (writeAt bytes pos patch).drop (pos + patch.length) = bytes.drop (pos + patch.length) := by
  have hl : (bytes.take pos ++ patch).length = pos + patch.length := by simp; omega
  rw [writeAt]
  exact List.drop_left' hl

theorem readBytes_writeAt (bytes patch : List Nat) (pos : Nat)
    (h : pos + patch.length ≤ bytes.length) :
    readBytes (writeAt bytes pos patch) pos patch.length = patch := by
  have hl : (bytes.take pos).length = pos := by simp; omega
  rw [readBytes, writeAt, List.append_assoc, List.drop_left' hl]
  exact List.take_left patch _

theorem writeAt_writeAt (bytes x y : List Nat) (pos : Nat)
    (h : pos + x.length ≤ bytes.length) :
    writeAt (writeAt bytes pos x) (pos + x.length) y = writeAt bytes pos (x ++ y) := by
  have hl : (bytes.take pos ++ x).length = pos + x.length := by simp; omega
  show ((bytes.take pos ++ x) ++ bytes.drop (pos + x.length)).take (pos + x.length) ++ y ++
      ((bytes.take pos ++ x) ++ bytes.drop (pos + x.length)).drop (pos + x.length + y.length) =
      bytes.take pos ++ (x ++ y) ++ bytes.drop (pos + (x ++ y).length)
  rw [List.take_left' hl]
  have hd : ((bytes.take pos ++ x) ++ bytes.drop (pos + x.length)).drop (pos + x.length + y.length) =
      bytes.drop (pos + x.length + y.length) := by
    rw [show pos + x.length + y.length = (bytes.take pos ++ x).length + y.length by omega,
      List.drop_append, List.drop_drop]
    congr 1
    omega
  rw [hd]
  simp [List.append_assoc, Nat.add_assoc]

/-! ## Lengths of packed records -/

theorem leBytes_length (w v : Nat) : (leBytes w v).length = w := by
  induction w generalizing v with
  | zero => rfl
  | succ w ih => simp [leBytes, ih]

theorem packBytes_length (e : IndexEntry) : (packBytes e).length = INDEX_BIN_SIZE := by
  simp [packBytes, leBytes_length]
  rfl

theorem packBlob_nil : packBlob [] = [] := rfl

theorem packBlob_cons (e : IndexEntry) (rest : List IndexEntry) :
    packBlob (e :: rest) = packBytes e ++ packBlob rest := by
  simp [packBlob]

theorem packBlob_length (idx : List IndexEntry) :
    (packBlob idx).length = INDEX_BIN_SIZE * idx.length := by
  induction idx with
  | nil => simp [packBlob]
  | cons e rest ih =>
    rw [packBlob_cons, List.length_append, ih, packBytes_length, List.length_cons,
      Nat.mul_succ]
    omega

/-! ## The patch loop writes exactly the packed records -/

theorem patchLoop_eq (idx : List IndexEntry) : ∀ (bytes : List Nat) (pos : Nat),
    (∀ e ∈ idx, entryInRange e = true) →
    pos + INDEX_BIN_SIZE * idx.length ≤ bytes.length →
    patchLoop bytes pos idx = (writeAt bytes pos (packBlob idx), true) := by
  induction idx with
  | nil =>
    intro bytes pos _ _
    simp [patchLoop, packBlob, writeAt_nil]
  | cons e rest ih =>
    intro bytes pos hok hb
    have he : entryInRange e = true := hok e (List.mem_cons_self e rest)
    have hpl : (packBytes e).length = INDEX_BIN_SIZE := packBytes_length e
    have hstep : pos + (packBytes e).length ≤ bytes.length := by
      rw [hpl]
      have : INDEX_BIN_SIZE * (e :: rest).length = INDEX_BIN_SIZE * rest.length + INDEX_BIN_SIZE := by
        rw [List.length_cons, Nat.mul_succ]
      omega
    have hlen : (writeAt bytes pos (packBytes e)).length = bytes.length :=
      length_writeAt bytes (packBytes e) pos hstep
    have hrest : pos + (packBytes e).length + INDEX_BIN_SIZE * rest.length ≤
        (writeAt bytes pos (packBytes e)).length := by
      rw [hlen, hpl]
      have : INDEX_BIN_SIZE * (e :: rest).length = INDEX_BIN_SIZE * rest.length + INDEX_BIN_SIZE := by
        rw [List.length_cons, Nat.mul_succ]
      omega
    rw [patchLoop, if_pos he,
      ih (writeAt bytes pos (packBytes e)) (pos + (packBytes e).length)
        (fun x hx => hok x (List.mem_cons_of_mem e hx)) hrest,
      writeAt_writeAt bytes (packBytes e) (packBlob rest) pos hstep, ← packBlob_cons]

/-! ## The recovery loop appends one entry per tile member -/

theorem recoverGo_length (ms : List TarMember) : ∀ (pos : Nat) (idx : List IndexEntry),
    recoverGo ms pos = Except.ok idx →
    idx.length = (ms.filter fun m => gphName m.name).length := by
  induction ms with
  | nil =>
    intro pos idx h
    simp only [recoverGo] at h
    cases h
    rfl
  | cons m rest ih =>
    intro pos idx h
    simp only [recoverGo] at h
    by_cases hg : gphName m.name
    · rw [if_pos hg] at h
      cases hid : get_tile_id m.name with
      | none => rw [hid] at h; cases h
      | some tid =>
        rw [hid] at h
        cases hrest : recoverGo rest (pos + memberSpan m) with
        | error e => rw [hrest] at h; cases h
        | ok l =>
          rw [hrest] at h
          cases h
          simp only [List.filter_cons, hg, if_pos, List.length_cons]
          rw [ih (pos + memberSpan m) l hrest]
    · rw [if_neg hg] at h
      simp only [List.filter_cons, hg]
      exact ih (pos + memberSpan m) idx h

/-! ## The traffic loop emits one member per tile member -/

theorem trafficGo_length (bytes : List Nat) (ms : List TarMember) : ∀ (pos : Nat),
    (trafficGo bytes ms pos).length = (ms.filter fun m => gphName m.name).length := by
  induction ms with
  | nil => intro pos; rfl
  | cons m rest ih =>
    intro pos
    by_cases hg : gphName m.name
    · simp [trafficGo, hg, List.filter_cons, ih]
    · simp [trafficGo, hg, List.filter_cons, ih]

/-! ## Tile count versus archive members -/

theorem filter_map_gph (es : List FsEntry)
    (hdirs : ∀ n, FsEntry.dir n ∈ es → gphName n = false) :
    ((es.map fsEntryMember).filter fun m => gphName m.name).length =
      (es.filter isGphFile).length := by
  induction es with
  | nil => rfl
  | cons e rest ih =>
    have hrest : ∀ n, FsEntry.dir n ∈ rest → gphName n = false := fun n hn =>
      hdirs n (List.mem_cons_of_mem e hn)
    cases e with
    | dir n =>
      have hn : gphName n = false := hdirs n (List.mem_cons_self _ _)
      simp [fsEntryMember, List.filter_cons, hn, isGphFile, ih hrest]
    | file n c =>
      by_cases hg : gphName n
      · simp [fsEntryMember, List.filter_cons, hg, isGphFile, ih hrest]
      · simp [fsEntryMember, List.filter_cons, hg, isGphFile, ih hrest]

theorem tarMembers_gph_count (d : TileDir)
    (hdirs : ∀ n, FsEntry.dir n ∈ d.entries → gphName n = false) :
    ((tarMembersOf d).filter fun m => gphName m.name).length = get_tile_count d := by
  have hidx : gphName INDEX_FILE = false := by decide
  have hroot : gphName ([] : List Char) = false := by decide
  simp only [tarMembersOf, List.filter_cons, hidx, hroot, Bool.false_eq_true, if_neg]
  exact filter_map_gph d.entries hdirs

/-! ## The index region fits inside the archive -/

theorem tarBytes_head_bound (m0 : TarMember) (ms : List TarMember) :
    BLOCKSIZE + m0.data.length ≤ (tarBytes (m0 :: ms)).length := by
  simp only [tarBytes, List.map_cons, List.flatten_cons, List.length_append,
    List.length_replicate, memberBytes, List.length_flatten]
  omega

/-- Shorthand for the primary archive after the patch pass rewrote the
`index.bin` region with the recovered records. -/
def patchedBytes (d : TileDir) (idx : List IndexEntry) : List Nat :=
  writeAt (tarBytes (tarMembersOf d)) BLOCKSIZE (packBlob idx)

theorem index_region_fits (d : TileDir) (idx : List IndexEntry)
    (hlen : idx.length = get_tile_count d) :
    BLOCKSIZE + INDEX_BIN_SIZE * idx.length ≤ (tarBytes (tarMembersOf d)).length := by
  have hb := tarBytes_head_bound ⟨INDEX_FILE, placeholderOf d, false⟩
    (⟨[], [], true⟩ :: d.entries.map fsEntryMember)
  simp only [placeholderOf, List.length_replicate] at hb
  rw [hlen]
  exact hb

/-! ## Unfolding `create_extracts` on a run that passes the directory checks -/

theorem create_extracts_ok (d : TileDir) (dt bound : Bool) (idx : List IndexEntry)
    (hex : d.pathExists = true) (hdir : d.isDir = true)
    (hdirs : ∀ n, FsEntry.dir n ∈ d.entries → gphName n = false)
    (hn : get_tile_count d ≠ 0)
    (hrec : recoverGo (tarMembersOf d) 0 = Except.ok idx)
    (hok : ∀ e ∈ idx, entryInRange e = true) :
    create_extracts d dt bound =
      (if !dt then
        ⟨RunResult.exited 0, some (patchedBytes d idx), none⟩
      else if bound then
        ⟨RunResult.returned, some (patchedBytes d idx),
          some (trafficArchive (patchedBytes d idx) (tarMembersOf d) (placeholderOf d))⟩
      else
        ⟨RunResult.raised PyErr.nameError, some (patchedBytes d idx),
          some (trafficArchive (patchedBytes d idx) (tarMembersOf d) (placeholderOf d))⟩) := by
  have hlen : idx.length = get_tile_count d :=
    (recoverGo_length (tarMembersOf d) 0 idx hrec).trans (tarMembers_gph_count d hdirs)
  have hfit := index_region_fits d idx hlen
  have hpatch : patchLoop (tarBytes (tarMembersOf d)) BLOCKSIZE idx = (patchedBytes d idx, true) :=
    patchLoop_eq idx (tarBytes (tarMembersOf d)) BLOCKSIZE hok hfit
  simp only [create_extracts, hex, hdir, Bool.not_true, Bool.or_self, Bool.false_eq_true,
    if_false, hn, hrec, hpatch]
  simp

/-! ## Parsing lemmas for digit strings -/

theorem dropWhile_eq_self_of (p : Char → Bool) (cs : List Char)
    (h : ∀ c ∈ cs, p c = false) : cs.dropWhile p = cs := by
  cases cs with
  | nil => rfl
  | cons c rest => simp [List.dropWhile, h c (List.mem_cons_self c rest)]

theorem stripWs_eq_self (cs : List Char) (h : ∀ c ∈ cs, isPySpace c = false) :
    stripWs cs = cs := by
  unfold stripWs
  rw [dropWhile_eq_self_of isPySpace cs h,
    dropWhile_eq_self_of isPySpace cs.reverse (fun c hc => h c (List.mem_reverse.mp hc)),
    List.reverse_reverse]

theorem digit_ne (c x : Char) (h : isDigitCh c = true) (hx : isDigitCh x = false) :
    c ≠ x := by
  intro he
  rw [he, hx] at h
  cases h

theorem not_space_of_digit (c : Char) (h : isDigitCh c = true) : isPySpace c = false := by
  have h1 : c ≠ ' ' := digit_ne c ' ' h (by decide)
  have h2 : c ≠ '\t' := digit_ne c '\t' h (by decide)
  have h3 : c ≠ '\n' := digit_ne c '\n' h (by decide)
  have h4 : c ≠ '\r' := digit_ne c '\r' h (by decide)
  have h5 : c ≠ '\x0b' := digit_ne c '\x0b' h (by decide)
  have h6 : c ≠ '\x0c' := digit_ne c '\x0c' h (by decide)
  simp [isPySpace, h1, h2, h3, h4, h5, h6]

theorem pyDigitsGo_all_digits (cs : List Char) : ∀ (acc : Nat),
    (∀ c ∈ cs, isDigitCh c = true) →
    pyDigitsGo cs acc false = some (cs.foldl (fun a c => a * 10 + digitVal c) acc) := by
  induction cs with
  | nil => intro acc _; rfl
  | cons c rest ih =>
    intro acc h
    have hc : isDigitCh c = true := h c (List.mem_cons_self c rest)
    rw [pyDigitsGo, if_pos hc, List.foldl_cons]
    exact ih (acc * 10 + digitVal c) (fun x hx => h x (List.mem_cons_of_mem c hx))

theorem pyDigits_all_digits (cs : List Char) (hne : cs ≠ [])
    (h : ∀ c ∈ cs, isDigitCh c = true) :
    pyDigits cs = some (decVal cs) := by
  cases cs with
  | nil => cases hne rfl
  | cons c rest =>
    have hc : isDigitCh c = true := h c (List.mem_cons_self c rest)
    rw [pyDigits, if_pos hc,
      pyDigitsGo_all_digits rest (digitVal c) (fun x hx => h x (List.mem_cons_of_mem c hx))]
    unfold decVal
    simp

theorem pyInt_all_digits (cs : List Char) (hne : cs ≠ [])
    (h : ∀ c ∈ cs, isDigitCh c = true) :
    pyInt cs = some ((decVal cs : Nat) : Int) := by
  have hst : stripWs cs = cs := stripWs_eq_self cs (fun c hc => not_space_of_digit c (h c hc))
  cases cs with
  | nil => cases hne rfl
  | cons c rest =>
    have hc : isDigitCh c = true := h c (List.mem_cons_self c rest)
    have hplus : c ≠ '+' := digit_ne c '+' hc (by decide)
    have hminus : c ≠ '-' := digit_ne c '-' hc (by decide)
    simp only [pyInt, hst, if_neg hplus, if_neg hminus,
      pyDigits_all_digits (c :: rest) hne h, Option.map_some']
    rfl

theorem pyInt_neg_digits (ds : List Char) (hne : ds ≠ [])
    (h : ∀ c ∈ ds, isDigitCh c = true) :
    pyInt ('-' :: ds) = some (-((decVal ds : Nat) : Int)) := by
  have hst : stripWs ('-' :: ds) = '-' :: ds := by
    apply stripWs_eq_self
    intro c hc
    rcases List.mem_cons.mp hc with he | hc2
    · rw [he]; decide
    · exact not_space_of_digit c (h c hc2)
  simp only [pyInt, hst, if_neg (by decide : ¬('-' = '+')), if_pos rfl,
    pyDigits_all_digits ds hne h, Option.map_some']
  simp

theorem splitFirst_append (lv segs : List Char) (h : ∀ c ∈ lv, c ≠ '/') :
    splitFirst '/' (lv ++ '/' :: segs) = some (lv, segs) := by
  induction lv with
  | nil => simp [splitFirst]
  | cons c rest ih =>
    have hc : c ≠ '/' := h c (List.mem_cons_self c rest)
    rw [List.cons_append, splitFirst, if_neg hc,
      ih (fun x hx => h x (List.mem_cons_of_mem c hx))]
    rfl

theorem pyOr_natCast (a b : Nat) : pyOr (a : Int) (b : Int) = ((a ||| b : Nat) : Int) := rfl

theorem pyShl_natCast (b : Nat) : pyShl (b : Int) 3 = ((b * 8 : Nat) : Int) := by
  unfold pyShl
  push_cast
  ring

/-! ## Characterising `splitFirst` -/

theorem splitFirst_eq_none_iff (sep : Char) (cs : List Char) :
    splitFirst sep cs = none ↔ sep ∉ cs := by
  induction cs with
  | nil => simp [splitFirst]
  | cons c rest ih =>
    by_cases hc : c = sep
    · subst hc
      simp [splitFirst]
    · simp [splitFirst, hc, Option.map_eq_none', ih, Ne.symm hc]

theorem splitFirst_eq_some_of_mem (sep : Char) (cs : List Char) (h : sep ∈ cs) :
    splitFirst sep cs =
      some (cs.takeWhile fun c => c != sep, (cs.dropWhile fun c => c != sep).drop 1) := by
  induction cs with
  | nil => cases h
  | cons c rest ih =>
    by_cases hc : c = sep
    · subst hc
      simp [splitFirst, List.takeWhile_cons, List.dropWhile_cons]
    · have hmem : sep ∈ rest := by
        rcases List.mem_cons.mp h with he | hr
        · exact absurd he.symm hc
        · exact hr
      have hbne : (c != sep) = true := by simp [hc]
      rw [splitFirst, if_neg hc, ih hmem]
      simp [List.takeWhile_cons, List.dropWhile_cons, hbne]

/-! ## Claim C2 -/

/-- Claim C2 (confirmed): for every tile path `<level>/<segments>.gph` —
`level` a nonempty digit string, `segments` digits and separators whose
digits, concatenated, are nonempty — `get_tile_id` returns
`int(level) | (int(digits) << 3)`, the level or-ed with the concatenated
digit value shifted left by three bits.  In particular `0/001.gph` encodes to
`0 ||| (1 <<< 3) = 8` and `1/002/003.gph` to `1 ||| (2003 <<< 3)` (witness). -/
theorem claim_c2_tile_id_formula (lv segs : List Char)
    (hlv_ne : lv ≠ [])
    (hlv : ∀ c ∈ lv, isDigitCh c = true)
    (hsegs : ∀ c ∈ segs, isDigitCh c = true ∨ c = '/')
    (hdg_ne : segs.filter (fun ch => ch != '/') ≠ []) :
    get_tile_id ((lv ++ '/' :: segs) ++ ".gph".toList) =
      some ((Nat.lor (decVal lv) (decVal (segs.filter fun ch => ch != '/') * 2 ^ 3) : Nat) : Int) := by
  have he4 : (".gph".toList).length = 4 := rfl
  have hlen4 : ((lv ++ '/' :: segs) ++ ".gph".toList).length - 4 = (lv ++ '/' :: segs).length := by
    simp only [List.length_append, he4]
    omega
  have hslash : ∀ c ∈ lv, c ≠ '/' := fun c hc => digit_ne c '/' (hlv c hc) (by decide)
  have hdigits : ∀ c ∈ segs.filter (fun ch => ch != '/'), isDigitCh c = true := by
    intro c hc
    have hc2 := List.mem_filter.mp hc
    rcases hsegs c hc2.1 with hd | hs
    · exact hd
    · rw [hs] at hc2
      simp at hc2
  have h1 : get_tile_id ((lv ++ '/' :: segs) ++ ".gph".toList) =
      match pyInt lv, pyInt (segs.filter fun ch => ch != '/') with
      | some l, some i => some (pyOr l (pyShl i 3))
      | _, _ => none := by
    simp only [get_tile_id, hlen4, List.take_left, splitFirst_append lv segs hslash]
  rw [h1, pyInt_all_digits lv hlv_ne hlv,
    pyInt_all_digits (segs.filter fun ch => ch != '/') hdg_ne hdigits]
  show some (pyOr ((decVal lv : Nat) : Int) (pyShl ((decVal (segs.filter fun ch => ch != '/') : Nat) : Int) 3)) = _
  rw [pyShl_natCast, pyOr_natCast]
  norm_num
  rfl

/-- Witness for C2: the two spec scenarios.  `0/001.gph` gives
`0 ||| (1 <<< 3) = 8`; `1/002/003.gph` concatenates the digits `"2003"` and
gives `1 ||| (2003 <<< 3) = 16025`. -/
theorem claim_c2_witness :
    get_tile_id (("0".toList ++ '/' :: "001".toList) ++ ".gph".toList) =
        some ((Nat.lor (decVal ("0".toList)) (decVal (("001".toList).filter fun ch => ch != '/') * 2 ^ 3) : Nat) : Int)
      ∧ get_tile_id (("1".toList ++ '/' :: "002/003".toList) ++ ".gph".toList) =
        some ((Nat.lor (decVal ("1".toList)) (decVal (("002/003".toList).filter fun ch => ch != '/') * 2 ^ 3) : Nat) : Int)
      ∧ ("0".toList ++ '/' :: "001".toList) ++ ".gph".toList = "0/001.gph".toList
      ∧ ("1".toList ++ '/' :: "002/003".toList) ++ ".gph".toList = "1/002/003.gph".toList
      ∧ ((Nat.lor (decVal ("0".toList)) (decVal (("001".toList).filter fun ch => ch != '/') * 2 ^ 3) : Nat) : Int) = 8
      ∧ ((Nat.lor (decVal ("1".toList)) (decVal (("002/003".toList).filter fun ch => ch != '/') * 2 ^ 3) : Nat) : Int) = 16025 := by
  refine ⟨claim_c2_tile_id_formula ("0".toList) ("001".toList) (by decide) (by decide) (by decide) (by decide),
    claim_c2_tile_id_formula ("1".toList) ("002/003".toList) (by decide) (by decide) (by decide) (by decide),
    by decide, by decide, by decide, by decide⟩

/-! ## Claim C5 -/

/-- Claim C5 counterexample: the claim says `get_tile_id` fails exactly when
the path has no separator, the level is not a small non-negative integer, or
the remainder is empty or non-numeric.  On `-1/001.gph` the level `-1` is not
a non-negative integer, yet the code succeeds: Python's `int('-1')` parses,
and `-1 | (1 << 3)` is `-1` in two's complement, a nonsense tile id. -/
theorem claim_c5_counterexample : get_tile_id ("-1/001.gph".toList) = some (-1) := by
  have h1 : get_tile_id ("-1/001.gph".toList) = some (pyOr (-1) (pyShl 1 3)) := rfl
  have h2 : Nat.ldiff 0 8 = 0 := by simp [Nat.ldiff, Nat.bitwise]
  rw [h1]
  show some (Int.negSucc (Nat.ldiff 0 8)) = some (-1)
  rw [h2]
  rfl

/-- Claim C5 (corrected): `get_tile_id` fails exactly when the path, after
dropping its last four characters, contains no `/`, or when the part before
the first `/`, or the part after it with all separators removed, is not a
string `int()` accepts.  `int()` accepts any optionally-signed decimal
numeral, so negative levels (and arbitrarily large ones) are accepted, not
rejected: in particular `'-' :: digits` parses to the negated value (second
conjunct).  Success or failure, the function is pure (modelled as a total
function into `Option`). -/
theorem claim_c5_amended :
    (∀ p : List Char,
      ((get_tile_id p).isSome = true ↔
        ('/' ∈ p.take (p.length - 4)
          ∧ (pyInt ((p.take (p.length - 4)).takeWhile fun c => c != '/')).isSome = true
          ∧ (pyInt (((((p.take (p.length - 4)).dropWhile fun c => c != '/')).drop 1).filter
              fun c => c != '/')).isSome = true)))
    ∧ (∀ ds : List Char, ds ≠ [] → (∀ c ∈ ds, isDigitCh c = true) →
        pyInt ('-' :: ds) = some (-((decVal ds : Nat) : Int))) := by
  constructor
  · intro p
    by_cases hmem : '/' ∈ p.take (p.length - 4)
    · have hsp := splitFirst_eq_some_of_mem '/' (p.take (p.length - 4)) hmem
      simp only [get_tile_id, hsp]
      cases hA : pyInt ((p.take (p.length - 4)).takeWhile fun c => c != '/') with
      | none => simp [hA, hmem]
      | some l =>
        cases hB : pyInt (((((p.take (p.length - 4)).dropWhile fun c => c != '/')).drop 1).filter
            fun c => c != '/') with
        | none => simp [hA, hB, hmem]
        | some i => simp [hA, hB, hmem]
    · have hn : splitFirst '/' (p.take (p.length - 4)) = none :=
        (splitFirst_eq_none_iff '/' (p.take (p.length - 4))).mpr hmem
      simp [get_tile_id, hn, hmem]
  · exact fun ds hne h => pyInt_neg_digits ds hne h

/-- Witness for C5: a valid path decodes (`0/001.gph`), and `int()` accepts
the signed numeral `-5` that the original claim says must be rejected. -/
theorem claim_c5_witness :
    (get_tile_id ("0/001.gph".toList)).isSome = true
      ∧ pyInt ('-' :: "5".toList) = some (-((decVal ("5".toList) : Nat) : Int)) := by
  constructor
  · exact (claim_c5_amended.1 ("0/001.gph".toList)).mpr (by decide)
  · exact claim_c5_amended.2 ("5".toList) (by decide) (by decide)

/-! ## Claim C7 -/

/-- Claim C7 counterexample: the claim says the `index.bin` placeholder is
all zero bytes; for the one-tile sample directory it is not — the script
builds it as `b'0' * index_size`, the ASCII digit zero (byte `0x30`). -/
theorem claim_c7_counterexample :
    ((tarMembersOf sampleDir).head?.map TarMember.data) ≠
      some (List.replicate (INDEX_BIN_SIZE * get_tile_count sampleDir) 0) := by decide

/-- Claim C7 (corrected): the `index.bin` placeholder written during the
reservation pass has exactly the reserved length `INDEX_BIN_SIZE * count`,
but consists of the ASCII digit `'0'` (byte value 48 = 0x30) repeated, not of
zero bytes. -/
theorem claim_c7_amended (d : TileDir) :
    ((tarMembersOf d).head?.map TarMember.data) =
        some (List.replicate (INDEX_BIN_SIZE * get_tile_count d) ('0').toNat)
      ∧ ((tarMembersOf d).head?.map fun m => m.data.length) =
        some (INDEX_BIN_SIZE * get_tile_count d)
      ∧ ('0').toNat = 48 := by
  refine ⟨rfl, ?_, rfl⟩
  simp [tarMembersOf, placeholderOf]

/-! ## Claim C4 -/

/-- Claim C4 (confirmed): for a tile member whose data starts at `off` with
at least 48 bytes available, the traffic pass reads payload bytes 40–47 as a
little-endian 64-bit word, takes bits 21..41 as `directededgecount_`
(`(word >> 21) & 0x1FFFFF`, here `word / 2^21 % 2^21`), and emits a member
with the same name, of size `TRAFFIC_HEADER_SIZE + TRAFFIC_SPEED_SIZE *
directededgecount_`, whose content is entirely zero bytes. -/
theorem claim_c4_traffic_member (bytes : List Nat) (name : List Char) (off : Nat)
    (b0 b1 b2 b3 b4 b5 b6 b7 : Nat)
    (hb : readBytes bytes (off + GRAPHTILE_SKIP_BYTES) 8 = [b0, b1, b2, b3, b4, b5, b6, b7])
    (hlt : ∀ b ∈ [b0, b1, b2, b3, b4, b5, b6, b7], b < 256) :
    trafficMember bytes name off =
      { name := name
        data := List.replicate
          (TRAFFIC_HEADER_SIZE + TRAFFIC_SPEED_SIZE *
            ((b0 + 2 ^ 8 * b1 + 2 ^ 16 * b2 + 2 ^ 24 * b3 + 2 ^ 32 * b4 + 2 ^ 40 * b5
              + 2 ^ 48 * b6 + 2 ^ 56 * b7) / 2 ^ 21 % 2 ^ 21)) 0
        isDir := false }
      ∧ ∀ b ∈ (trafficMember bytes name off).data, b = 0 := by
  have l0 : b0 < 256 := hlt b0 (by simp)
  have l1 : b1 < 256 := hlt b1 (by simp)
  have l2 : b2 < 256 := hlt b2 (by simp)
  have l3 : b3 < 256 := hlt b3 (by simp)
  have l4 : b4 < 256 := hlt b4 (by simp)
  have l5 : b5 < 256 := hlt b5 (by simp)
  have l6 : b6 < 256 := hlt b6 (by simp)
  have l7 : b7 < 256 := hlt b7 (by simp)
  have hword : readinto8 (readBytes bytes (off + GRAPHTILE_SKIP_BYTES) 8) =
      b0 + 2 ^ 8 * b1 + 2 ^ 16 * b2 + 2 ^ 24 * b3 + 2 ^ 32 * b4 + 2 ^ 40 * b5
        + 2 ^ 48 * b6 + 2 ^ 56 * b7 := by
    rw [hb]
    simp only [readinto8, leWord, List.take, List.length_cons, List.length_nil, List.foldr]
    rw [Nat.mod_eq_of_lt l0, Nat.mod_eq_of_lt l1, Nat.mod_eq_of_lt l2, Nat.mod_eq_of_lt l3,
      Nat.mod_eq_of_lt l4, Nat.mod_eq_of_lt l5, Nat.mod_eq_of_lt l6, Nat.mod_eq_of_lt l7]
    ring
  constructor
  · unfold trafficMember
    rw [hword]
  · intro b hbm
    unfold trafficMember at hbm
    exact List.eq_of_mem_replicate hbm

/-- Witness for C4: a payload whose bytes 40–47 read `[0,0,64,0,0,0,0,0]`;
the little-endian word is `64 * 2^16 = 2^22`, so `directededgecount_ = 2` and
the member has `32 + 8 * 2 = 48` zero bytes. -/
theorem claim_c4_witness :
    trafficMember (List.replicate 40 7 ++ [0, 0, 64, 0, 0, 0, 0, 0]) ("0/001.gph".toList) 0 =
      { name := "0/001.gph".toList, data := List.replicate 48 0, isDir := false }
      ∧ ∀ b ∈ (trafficMember (List.replicate 40 7 ++ [0, 0, 64, 0, 0, 0, 0, 0])
          ("0/001.gph".toList) 0).data, b = 0 := by
  have h := claim_c4_traffic_member (List.replicate 40 7 ++ [0, 0, 64, 0, 0, 0, 0, 0])
    ("0/001.gph".toList) 0 0 0 64 0 0 0 0 0 (by decide) (by decide)
  refine ⟨?_, h.2⟩
  rw [h.1]
  decide

/-! ## Claim C6 -/

/-- Claim C6 counterexample: the claim says the run fails with
`HeaderDecodeError` when fewer than 8 bytes are available at
`offset_data + 40`.  On a truncated 556-byte archive, only 4 bytes are
available at the tile's `offset_data + 40 = 552`, yet the traffic pass
produces a traffic member (of minimal size: the short read is zero-filled)
instead of failing; no such exception exists anywhere in the script. -/
theorem claim_c6_counterexample :
    trafficGo (List.replicate 556 0) [⟨"0/001.gph".toList, List.replicate 44 0, false⟩] 0 =
      [⟨"0/001.gph".toList, List.replicate TRAFFIC_HEADER_SIZE 0, false⟩] := by decide

/-- Claim C6 (corrected): when fewer than 8 bytes are available at
`offset_data + GRAPHTILE_SKIP_BYTES`, the run does not fail: `read` returns
the bytes that are there (strictly fewer than 8), `readinto` leaves the rest
of the zero-initialised struct untouched, and a zero-filled traffic member is
still produced for the tile, sized from the zero-extended word. -/
theorem claim_c6_amended (bytes : List Nat) (name : List Char) (off : Nat)
    (hshort : bytes.length < off + GRAPHTILE_SKIP_BYTES + 8) :
    (readBytes bytes (off + GRAPHTILE_SKIP_BYTES) 8).length < 8
      ∧ trafficMember bytes name off =
        { name := name
          data := List.replicate (TRAFFIC_HEADER_SIZE + TRAFFIC_SPEED_SIZE *
            (readinto8 (readBytes bytes (off + GRAPHTILE_SKIP_BYTES) 8) / 2 ^ 21 % 2 ^ 21)) 0
          isDir := false }
      ∧ ∀ b ∈ (trafficMember bytes name off).data, b = 0 := by
  refine ⟨?_, rfl, ?_⟩
  · simp only [readBytes, List.length_take, List.length_drop]
    omega
  · intro b hbm
    unfold trafficMember at hbm
    exact List.eq_of_mem_replicate hbm

/-- Witness for C6: a 10-byte file is shorter than `offset_data + 48`, and
the tile still gets its zero member. -/
theorem claim_c6_witness :
    (readBytes (List.replicate 10 3) (0 + GRAPHTILE_SKIP_BYTES) 8).length < 8
      ∧ trafficMember (List.replicate 10 3) ("1/002.gph".toList) 0 =
        { name := "1/002.gph".toList
          data := List.replicate (TRAFFIC_HEADER_SIZE + TRAFFIC_SPEED_SIZE *
            (readinto8 (readBytes (List.replicate 10 3) (0 + GRAPHTILE_SKIP_BYTES) 8) / 2 ^ 21 % 2 ^ 21)) 0
          isDir := false }
      ∧ ∀ b ∈ (trafficMember (List.replicate 10 3) ("1/002.gph".toList) 0).data, b = 0 :=
  claim_c6_amended (List.replicate 10 3) ("1/002.gph".toList) 0 (by decide)

/-- No directory in the sample tile tree is named like a tile. -/
theorem sampleDir_dirs_ok : ∀ n, FsEntry.dir n ∈ sampleDir.entries → gphName n = false := by
  intro n hn
  simp only [sampleDir] at hn
  rcases List.mem_cons.mp hn with he | hr
  · have hne : n = "0".toList := by injection he
    rw [hne]
    decide
  · rcases List.mem_cons.mp hr with he2 | h0
    · simp at he2
    · simp at h0

/-! ## Claim C10 -/

/-- Claim C10 (confirmed): with `do_traffic` false, a run that passes the
directory checks, decodes every tile name and packs every entry never
returns control to its caller: after patching the primary archive's index it
terminates the process through `sys.exit(0)`. -/
theorem claim_c10_exit0 (d : TileDir) (b : Bool) (idx : List IndexEntry)
    (hex : d.pathExists = true) (hdir : d.isDir = true)
    (hdirs : ∀ n, FsEntry.dir n ∈ d.entries → gphName n = false)
    (hn : get_tile_count d ≠ 0)
    (hrec : recoverGo (tarMembersOf d) 0 = Except.ok idx)
    (hok : ∀ e ∈ idx, entryInRange e = true) :
    (create_extracts d false b).result = RunResult.exited 0
      ∧ (create_extracts d false b).result ≠ RunResult.returned
      ∧ (create_extracts d false b).primary = some (patchedBytes d idx) := by
  rw [create_extracts_ok d false b idx hex hdir hdirs hn hrec hok]
  simp

/-- Witness for C10: the one-tile sample run with `do_traffic` false exits
with code 0 and leaves the patched primary archive. -/
theorem claim_c10_witness :
    (create_extracts sampleDir false true).result = RunResult.exited 0
      ∧ (create_extracts sampleDir false true).result ≠ RunResult.returned
      ∧ (create_extracts sampleDir false true).primary =
          some (patchedBytes sampleDir [(2560, 8, 10)]) :=
  claim_c10_exit0 sampleDir true [(2560, 8, 10)] (by decide) (by decide) sampleDir_dirs_ok
    (by decide) (by decide) (by decide)

/-! ## Claim C9 -/

/-- Claim C9 (confirmed): called directly (not through `__main__`, so the
global `traffic_fp` is unbound) with `do_traffic` true, `create_extracts`
raises `NameError` on its final logging f-string — but only after the
traffic archive is complete: it holds `index.bin` plus one member per tile.
Such a call never returns normally. -/
theorem claim_c9_nameerror (d : TileDir) (idx : List IndexEntry)
    (hex : d.pathExists = true) (hdir : d.isDir = true)
    (hdirs : ∀ n, FsEntry.dir n ∈ d.entries → gphName n = false)
    (hn : get_tile_count d ≠ 0)
    (hrec : recoverGo (tarMembersOf d) 0 = Except.ok idx)
    (hok : ∀ e ∈ idx, entryInRange e = true) :
    (create_extracts d true false).result = RunResult.raised PyErr.nameError
      ∧ (create_extracts d true false).result ≠ RunResult.returned
      ∧ ((create_extracts d true false).traffic.map List.length) =
          some (1 + get_tile_count d) := by
  have hcount := (trafficGo_length (patchedBytes d idx) (tarMembersOf d) 0).trans
    (tarMembers_gph_count d hdirs)
  rw [create_extracts_ok d true false idx hex hdir hdirs hn hrec hok]
  refine ⟨by simp, by simp, ?_⟩
  simp only [Bool.not_true, Bool.false_eq_true, if_false, Option.map_some']
  rw [trafficArchive]
  simp [List.length_cons, hcount]
  omega

/-- Witness for C9: the one-tile sample run, called with the global unbound,
raises `NameError` with the traffic archive already holding 2 members. -/
theorem claim_c9_witness :
    (create_extracts sampleDir true false).result = RunResult.raised PyErr.nameError
      ∧ (create_extracts sampleDir true false).result ≠ RunResult.returned
      ∧ ((create_extracts sampleDir true false).traffic.map List.length) =
          some (1 + get_tile_count sampleDir) :=
  claim_c9_nameerror sampleDir [(2560, 8, 10)] (by decide) (by decide) sampleDir_dirs_ok
    (by decide) (by decide) (by decide)

/-! ## Claim C8 -/

/-- Claim C8 counterexample: a tile directory that exists and contains one
`.gph` file named `abc.gph` — whose name `get_tile_id` cannot decode — is in
the claim's "otherwise" case, yet the run does not exit with code 0: the
primary archive is written, then the recovery pass dies with an uncaught
`ValueError`, so the interpreter exits with code 1 after archive I/O. -/
theorem claim_c8_counterexample :
    exitCode (create_extracts
        (TileDir.mk true true [FsEntry.file ("abc.gph".toList) (List.replicate 10 1)]) false true) = 1
      ∧ (create_extracts
        (TileDir.mk true true [FsEntry.file ("abc.gph".toList) (List.replicate 10 1)])
          false true).primary.isSome = true
      ∧ (create_extracts
        (TileDir.mk true true [FsEntry.file ("abc.gph".toList) (List.replicate 10 1)])
          false true).result = RunResult.raised PyErr.valueError := by
  refine ⟨?_, ?_, ?_⟩ <;> decide

/-- Claim C8 (corrected): a missing or non-directory tile root, or one with
no `.gph` files, exits with code 1 before any archive is written (no primary
or traffic output exists); otherwise — provided every tile name decodes and
every recovered entry fits its packed field — the run exits with code 0,
whether or not the traffic sidecar is requested.  A tile name that does not
decode instead crashes the run (exit code 1) after the archive is written,
as the counterexample shows. -/
theorem claim_c8_amended (d : TileDir) (dt : Bool) (idx : List IndexEntry)
    (hex : d.pathExists = true) (hdir : d.isDir = true)
    (hdirs : ∀ n, FsEntry.dir n ∈ d.entries → gphName n = false)
    (hn : get_tile_count d ≠ 0)
    (hrec : recoverGo (tarMembersOf d) 0 = Except.ok idx)
    (hok : ∀ e ∈ idx, entryInRange e = true) :
    (∀ (d2 : TileDir) (dt2 b2 : Bool),
        (d2.pathExists = false ∨ d2.isDir = false ∨ get_tile_count d2 = 0) →
        create_extracts d2 dt2 b2 = ⟨RunResult.exited 1, none, none⟩)
      ∧ exitCode (create_extracts d dt true) = 0 := by
  constructor
  · intro d2 dt2 b2 h2
    by_cases hc : (!d2.pathExists || !d2.isDir) = true
    · simp [create_extracts, hc]
    · rcases h2 with h | h | h
      · simp [h] at hc
      · simp [h] at hc
      · simp [create_extracts, hc, h]
  · rw [create_extracts_ok d dt true idx hex hdir hdirs hn hrec hok]
    cases dt <;> simp [exitCode]

/-- Witness for C8: the sample run exits 0. -/
theorem claim_c8_witness :
    exitCode (create_extracts sampleDir false true) = 0 :=
  (claim_c8_amended sampleDir false [(2560, 8, 10)] (by decide) (by decide) sampleDir_dirs_ok
    (by decide) (by decide) (by decide)).2

/-! ## Claim C3 -/

/-- Claim C3 (confirmed): on a run over a directory with `n ≥ 1` tile files
(no directory named like a tile), the reserved `index.bin` size is
`n * INDEX_BIN_SIZE` (16 bytes per little-endian `{u64,u32,u32}` record),
the offset-recovery pass appends exactly `n` entries, and the patch pass
overwrites exactly `n * INDEX_BIN_SIZE` bytes starting at the first member's
data offset `BLOCKSIZE` without resizing the archive: the length and all
bytes before and after the patched range are unchanged, and the serialized
index length always equals the earlier reservation. -/
theorem claim_c3_reservation_invariants (d : TileDir) (idx : List IndexEntry)
    (hdirs : ∀ n, FsEntry.dir n ∈ d.entries → gphName n = false)
    (hn : 1 ≤ get_tile_count d)
    (hrec : recoverGo (tarMembersOf d) 0 = Except.ok idx)
    (hok : ∀ e ∈ idx, entryInRange e = true) :
    (placeholderOf d).length = INDEX_BIN_SIZE * get_tile_count d
      ∧ idx.length = get_tile_count d
      ∧ patchLoop (tarBytes (tarMembersOf d)) BLOCKSIZE idx = (patchedBytes d idx, true)
      ∧ (patchedBytes d idx).length = (tarBytes (tarMembersOf d)).length
      ∧ readBytes (patchedBytes d idx) BLOCKSIZE (INDEX_BIN_SIZE * get_tile_count d) = packBlob idx
      ∧ (packBlob idx).length = INDEX_BIN_SIZE * get_tile_count d
      ∧ (patchedBytes d idx).take BLOCKSIZE = (tarBytes (tarMembersOf d)).take BLOCKSIZE
      ∧ (patchedBytes d idx).drop (BLOCKSIZE + INDEX_BIN_SIZE * get_tile_count d) =
          (tarBytes (tarMembersOf d)).drop (BLOCKSIZE + INDEX_BIN_SIZE * get_tile_count d) := by
  have hlen : idx.length = get_tile_count d :=
    (recoverGo_length (tarMembersOf d) 0 idx hrec).trans (tarMembers_gph_count d hdirs)
  have hfit := index_region_fits d idx hlen
  have hblob : (packBlob idx).length = INDEX_BIN_SIZE * get_tile_count d := by
    rw [packBlob_length, hlen]
  have hfit2 : BLOCKSIZE + (packBlob idx).length ≤ (tarBytes (tarMembersOf d)).length := by
    rw [hblob, ← hlen]
    exact hfit
  refine ⟨by simp [placeholderOf], hlen, patchLoop_eq idx (tarBytes (tarMembersOf d)) BLOCKSIZE hok hfit,
    ?_, ?_, hblob, ?_, ?_⟩
  · exact length_writeAt (tarBytes (tarMembersOf d)) (packBlob idx) BLOCKSIZE hfit2
  · have h := readBytes_writeAt (tarBytes (tarMembersOf d)) (packBlob idx) BLOCKSIZE hfit2
    rw [hblob] at h
    exact h
  · exact take_writeAt (tarBytes (tarMembersOf d)) (packBlob idx) BLOCKSIZE
      (le_trans (Nat.le_add_right BLOCKSIZE (packBlob idx).length) hfit2)
  · have h := drop_writeAt (tarBytes (tarMembersOf d)) (packBlob idx) BLOCKSIZE hfit2
    rw [hblob] at h
    exact h

/-- Witness for C3: the one-tile sample run, with its single recovered entry
`(2560, 8, 10)`. -/
theorem claim_c3_witness :
    (placeholderOf sampleDir).length = INDEX_BIN_SIZE * get_tile_count sampleDir
      ∧ ([(2560, 8, 10)] : List IndexEntry).length = get_tile_count sampleDir
      ∧ patchLoop (tarBytes (tarMembersOf sampleDir)) BLOCKSIZE [(2560, 8, 10)] =
          (patchedBytes sampleDir [(2560, 8, 10)], true)
      ∧ (patchedBytes sampleDir [(2560, 8, 10)]).length = (tarBytes (tarMembersOf sampleDir)).length
      ∧ readBytes (patchedBytes sampleDir [(2560, 8, 10)]) BLOCKSIZE
          (INDEX_BIN_SIZE * get_tile_count sampleDir) = packBlob [(2560, 8, 10)]
      ∧ (packBlob [(2560, 8, 10)]).length = INDEX_BIN_SIZE * get_tile_count sampleDir
      ∧ (patchedBytes sampleDir [(2560, 8, 10)]).take BLOCKSIZE =
          (tarBytes (tarMembersOf sampleDir)).take BLOCKSIZE
      ∧ (patchedBytes sampleDir [(2560, 8, 10)]).drop
          (BLOCKSIZE + INDEX_BIN_SIZE * get_tile_count sampleDir) =
          (tarBytes (tarMembersOf sampleDir)).drop
            (BLOCKSIZE + INDEX_BIN_SIZE * get_tile_count sampleDir) :=
  claim_c3_reservation_invariants sampleDir [(2560, 8, 10)] sampleDir_dirs_ok (by decide)
    (by decide) (by decide)

/-! ## Claim C1 -/

/-- Claim C1 counterexample: for the one-tile sample run with the traffic
sidecar requested, the traffic archive's first member `index.bin` is the
pass-1 placeholder (sixteen ASCII `'0'` bytes), while the patched index of
the primary archive starts with the little-endian byte offset 2560 — the
contents are not byte-identical as the claim requires. -/
theorem claim_c1_counterexample :
    ((create_extracts sampleDir true true).traffic.bind List.head?).map TarMember.data ≠
      ((create_extracts sampleDir true true).primary.map
        fun b => readBytes b BLOCKSIZE (INDEX_BIN_SIZE * get_tile_count sampleDir)) := by
  decide

/-- Claim C1 (corrected): the traffic archive's first member is named
`index.bin` and has the same length as the primary archive's final index
(`INDEX_BIN_SIZE` bytes per tile), but its content is the pass-1 placeholder
of ASCII `'0'` bytes — the script only rewinds the in-memory placeholder
(`index_fd.seek(0)`), it never rewrites it with the patched records. -/
theorem claim_c1_amended (d : TileDir) (bound : Bool) (idx : List IndexEntry)
    (hex : d.pathExists = true) (hdir : d.isDir = true)
    (hdirs : ∀ n, FsEntry.dir n ∈ d.entries → gphName n = false)
    (hn : get_tile_count d ≠ 0)
    (hrec : recoverGo (tarMembersOf d) 0 = Except.ok idx)
    (hok : ∀ e ∈ idx, entryInRange e = true) :
    ((create_extracts d true bound).traffic.bind List.head?) =
        some ⟨INDEX_FILE, List.replicate (INDEX_BIN_SIZE * get_tile_count d) ('0').toNat, false⟩
      ∧ ((create_extracts d true bound).primary.map
          fun b => (readBytes b BLOCKSIZE (INDEX_BIN_SIZE * get_tile_count d)).length)
        = some (INDEX_BIN_SIZE * get_tile_count d) := by
  have hlen : idx.length = get_tile_count d :=
    (recoverGo_length (tarMembersOf d) 0 idx hrec).trans (tarMembers_gph_count d hdirs)
  have hfit := index_region_fits d idx hlen
  have hblob : (packBlob idx).length = INDEX_BIN_SIZE * get_tile_count d := by
    rw [packBlob_length, hlen]
  have hfit2 : BLOCKSIZE + (packBlob idx).length ≤ (tarBytes (tarMembersOf d)).length := by
    rw [hblob, ← hlen]
    exact hfit
  have hplen : (patchedBytes d idx).length = (tarBytes (tarMembersOf d)).length :=
    length_writeAt (tarBytes (tarMembersOf d)) (packBlob idx) BLOCKSIZE hfit2
  rw [create_extracts_ok d true bound idx hex hdir hdirs hn hrec hok]
  constructor
  · cases bound <;> simp [trafficArchive, placeholderOf]
  · cases bound <;>
      · simp only [Bool.not_true, Bool.false_eq_true, if_false, if_true, Option.map_some']
        simp only [readBytes, List.length_take, List.length_drop, hplen]
        rw [hblob] at hfit2
        congr 1
        omega

/-- Witness for C1: the one-tile sample run. -/
theorem claim_c1_witness :
    ((create_extracts sampleDir true true).traffic.bind List.head?) =
        some ⟨INDEX_FILE, List.replicate (INDEX_BIN_SIZE * get_tile_count sampleDir) ('0').toNat, false⟩
      ∧ ((create_extracts sampleDir true true).primary.map
          fun b => (readBytes b BLOCKSIZE (INDEX_BIN_SIZE * get_tile_count sampleDir)).length)
        = some (INDEX_BIN_SIZE * get_tile_count sampleDir) :=
  claim_c1_amended sampleDir true [(2560, 8, 10)] (by decide) (by decide) sampleDir_dirs_ok
    (by decide) (by decide) (by decide)
